import Mathlib

/-!
Shallow embedding of `app.py` (WhisperX transcription UI) and proofs about it.

The pure formatting core (`format_timestamp`, `format_transcript_with_speakers`,
`format_transcript_simple`) is translated directly.  Python floats standing for
seconds are modelled as rationals (`ℚ`); Python's `str.strip` is modelled on the
underlying character list; Python's `sep.join` is modelled by `pyjoin`.

The orchestrator `transcribe_audio` calls external whisperx/torch services; those
calls are modelled by an oracle environment `TEnv` recording the outcome of each
external stage (success value or exception message), and the Gradio progress
channel is modelled as the list of `(fraction, description)` events emitted, in
order.
-/

/-- Python's `str.strip` on a character list: drop whitespace from both ends. -/
def pystripList (l : List Char) : List Char :=
  ((l.dropWhile Char.isWhitespace).reverse.dropWhile Char.isWhitespace).reverse

/-- Python's `str.strip` (`text.strip()` in `app.py`). -/
def pystrip (s : String) : String :=
  ⟨pystripList s.data⟩

/-- Python's `sep.join(parts)`. -/
def pyjoin (sep : String) : List String → String
  | [] => ""
  | p :: ps => ps.foldl (fun acc q => acc ++ sep ++ q) p

/-- Python's float floor-division `a // b` (result is an integral-valued float). -/
def pyFloorDiv (a b : ℚ) : ℚ := ⌊a / b⌋

/-- Python's float modulus `a % b` (sign follows the divisor). -/
def pyMod (a b : ℚ) : ℚ := a - b * ⌊a / b⌋

/-- Python's `int()` applied to a float: truncation toward zero. -/
def pyInt (q : ℚ) : ℤ := if 0 ≤ q then ⌊q⌋ else -⌊-q⌋

/-- Python's `f"{n:02d}"`: decimal rendering zero-padded to width two. -/
def pad2 (n : ℤ) : String :=
  if 0 ≤ n ∧ n < 10 then "0" ++ toString n else toString n

/-- `format_timestamp` from `app.py`: convert seconds to `HH:MM:SS`. -/
def format_timestamp (seconds : ℚ) : String :=
  let hours : ℤ := pyInt (pyFloorDiv seconds 3600)
  let minutes : ℤ := pyInt (pyFloorDiv (pyMod seconds 3600) 60)
  let secs : ℤ := pyInt (pyMod seconds 60)
  pad2 hours ++ ":" ++ pad2 minutes ++ ":" ++ pad2 secs

/-- A transcription segment as consumed by the formatters: `segment.get("start", 0)`,
`segment.get("speaker", "UNKNOWN")`, `segment.get("text", "")` become a rational
start time, an optional speaker label and a text. -/
structure Segment where
  start : ℚ := 0
  speaker : Option String := none
  text : String := ""
deriving DecidableEq

/-- Loop state of `format_transcript_with_speakers`: the accumulated output lines
and the open block's speaker, text fragments and start time. -/
structure SpkState where
  lines : List String
  current_speaker : Option String
  current_text_parts : List String
  segment_start_time : Option ℚ
deriving DecidableEq

/-- Rendering of one flushed speaker block: `f"[{timestamp}] {current_speaker}: {combined_text}"`
with `combined_text = " ".join(current_text_parts)`. -/
def renderBlockLine (t : Option ℚ) (spk : String) (parts : List String) : String :=
  "[" ++ format_timestamp (t.getD 0) ++ "] " ++ spk ++ ": " ++ pyjoin " " parts

/-- One iteration of the loop in `format_transcript_with_speakers`. -/
def spkStep (st : SpkState) (segment : Segment) : SpkState :=
  let speaker := segment.speaker.getD "UNKNOWN"
  let text := pystrip segment.text
  let start_time := segment.start
  if text = "" then st
  else if some speaker ≠ st.current_speaker then
    let lines :=
      match st.current_speaker with
      | some cs =>
          if st.current_text_parts ≠ [] then
            st.lines ++ [renderBlockLine st.segment_start_time cs st.current_text_parts]
          else st.lines
      | none => st.lines
    { lines := lines, current_speaker := some speaker,
      current_text_parts := [text], segment_start_time := some start_time }
  else
    { st with current_text_parts := st.current_text_parts ++ [text] }

/-- The final flush after the loop ("Don't forget the last speaker's text"). -/
def spkFinish (st : SpkState) : List String :=
  match st.current_speaker with
  | some cs =>
      if st.current_text_parts ≠ [] then
        st.lines ++ [renderBlockLine st.segment_start_time cs st.current_text_parts]
      else st.lines
  | none => st.lines

/-- Initial loop state: `lines = []`, `current_speaker = None`,
`current_text_parts = []`, `segment_start_time = None`. -/
def spkInit : SpkState := ⟨[], none, [], none⟩

/-- `format_transcript_with_speakers` from `app.py`. -/
def format_transcript_with_speakers (segments : List Segment) : String :=
  if segments = [] then "No transcription results."
  else pyjoin "\n\n" (spkFinish (segments.foldl spkStep spkInit))

/-- One iteration of the loop in `format_transcript_simple`: keep a line when
the segment's stripped text is non-empty. -/
def simpleStep (lines : List String) (segment : Segment) : List String :=
  let text := pystrip segment.text
  if text ≠ "" then
    lines ++ ["[" ++ format_timestamp segment.start ++ "] " ++ text]
  else lines

/-- Loop of `format_transcript_simple`, starting from `lines = []`. -/
def simpleLines (segments : List Segment) : List String :=
  segments.foldl simpleStep []

/-- `format_transcript_simple` from `app.py`. -/
def format_transcript_simple (segments : List Segment) : String :=
  if segments = [] then "No transcription results."
  else pyjoin "\n\n" (simpleLines segments)

/-- Evaluation helper: characterise the floor of a concrete rational. -/
lemma floor_lit (r : ℚ) (z : ℤ) (h1 : (z : ℚ) ≤ r) (h2 : r < z + 1) : ⌊r⌋ = z := by
  rw [Int.floor_eq_iff]
  exact ⟨h1, h2⟩

/-- Evaluation helper for `format_timestamp` at a concrete rational: reduce the
three fields to integer literals. -/
lemma format_timestamp_eval (s : ℚ) (h m k c : ℤ)
    (e1 : ⌊s / 3600⌋ = h)
    (e2 : ⌊(s - 3600 * (h : ℚ)) / 60⌋ = m)
    (e3 : ⌊s / 60⌋ = k)
    (e4 : ⌊s - 60 * (k : ℚ)⌋ = c)
    (hh : 0 ≤ h) (hm : 0 ≤ m) (hs60 : 0 ≤ s - 60 * (k : ℚ)) :
    format_timestamp s = pad2 h ++ ":" ++ pad2 m ++ ":" ++ pad2 c := by
  have A1 : pyFloorDiv s 3600 = (h : ℚ) := by rw [pyFloorDiv, e1]
  have A2 : pyInt ((h : ℚ)) = h := by
    rw [pyInt, if_pos (by exact_mod_cast hh)]
    exact Int.floor_intCast h
  have B1 : pyMod s 3600 = s - 3600 * (h : ℚ) := by rw [pyMod, e1]
  have B2 : pyFloorDiv (s - 3600 * (h : ℚ)) 60 = (m : ℚ) := by rw [pyFloorDiv, e2]
  have B3 : pyInt ((m : ℚ)) = m := by
    rw [pyInt, if_pos (by exact_mod_cast hm)]
    exact Int.floor_intCast m
  have C1 : pyMod s 60 = s - 60 * (k : ℚ) := by rw [pyMod, e3]
  have C2 : pyInt (s - 60 * (k : ℚ)) = c := by rw [pyInt, if_pos hs60, e4]
  show pad2 (pyInt (pyFloorDiv s 3600)) ++ ":" ++
      pad2 (pyInt (pyFloorDiv (pyMod s 3600) 60)) ++ ":" ++
      pad2 (pyInt (pyMod s 60)) = _
  rw [A1, A2, B1, B2, B3, C1, C2]

lemma ts_eval_0 : format_timestamp 0 = "00:00:00" := by
  rw [format_timestamp_eval 0 0 0 0 0 (floor_lit _ _ (by norm_num) (by norm_num))
    (floor_lit _ _ (by norm_num) (by norm_num)) (floor_lit _ _ (by norm_num) (by norm_num))
    (floor_lit _ _ (by norm_num) (by norm_num)) (by norm_num) (by norm_num) (by norm_num)]
  decide

lemma ts_eval_1 : format_timestamp 1 = "00:00:01" := by
  rw [format_timestamp_eval 1 0 0 0 1 (floor_lit _ _ (by norm_num) (by norm_num))
    (floor_lit _ _ (by norm_num) (by norm_num)) (floor_lit _ _ (by norm_num) (by norm_num))
    (floor_lit _ _ (by norm_num) (by norm_num)) (by norm_num) (by norm_num) (by norm_num)]
  decide

lemma ts_eval_3 : format_timestamp 3 = "00:00:03" := by
  rw [format_timestamp_eval 3 0 0 0 3 (floor_lit _ _ (by norm_num) (by norm_num))
    (floor_lit _ _ (by norm_num) (by norm_num)) (floor_lit _ _ (by norm_num) (by norm_num))
    (floor_lit _ _ (by norm_num) (by norm_num)) (by norm_num) (by norm_num) (by norm_num)]
  decide

lemma ts_eval_3661 : format_timestamp 3661 = "01:01:01" := by
  rw [format_timestamp_eval 3661 1 1 61 1 (floor_lit _ _ (by norm_num) (by norm_num))
    (floor_lit _ _ (by norm_num) (by norm_num)) (floor_lit _ _ (by norm_num) (by norm_num))
    (floor_lit _ _ (by norm_num) (by norm_num)) (by norm_num) (by norm_num) (by norm_num)]
  decide

lemma ts_eval_59_9 : format_timestamp (599 / 10) = "00:00:59" := by
  rw [format_timestamp_eval (599 / 10) 0 0 0 59 (floor_lit _ _ (by norm_num) (by norm_num))
    (floor_lit _ _ (by norm_num) (by norm_num)) (floor_lit _ _ (by norm_num) (by norm_num))
    (floor_lit _ _ (by norm_num) (by norm_num)) (by norm_num) (by norm_num) (by norm_num)]
  decide

/-! ## Character-level lemmas about `pystrip` and `pyjoin` -/

/-- Dropping while a predicate fails at the last element keeps that element. -/
lemma dropWhile_append_singleton (p : Char → Bool) (ys : List Char) (a : Char)
    (ha : p a = false) : (ys ++ [a]).dropWhile p = ys.dropWhile p ++ [a] := by
  induction ys with
  | nil => simp [List.dropWhile, ha]
  | cons c cs ih =>
      by_cases hc : p c <;> simp [List.dropWhile, hc, ih]

/-- The head surviving `dropWhile` falsifies the predicate. -/
lemma dropWhile_head_false (p : Char → Bool) :
    ∀ (l : List Char) (c : Char) (cs : List Char), l.dropWhile p = c :: cs → p c = false := by
  intro l
  induction l with
  | nil => intro c cs h; simp [List.dropWhile] at h
  | cons d ds ih =>
      intro c cs h
      by_cases hd : p d
      · rw [List.dropWhile_cons_of_pos hd] at h
        exact ih c cs h
      · rw [List.dropWhile_cons_of_neg hd] at h
        injection h with h1 h2
        subst h1
        exact Bool.eq_false_iff.mpr hd

/-- If the initial whitespace drop leaves something, the stripped list holds a
non-whitespace character. -/
lemma pystripList_exists_not_ws (l : List Char)
    (hne : l.dropWhile Char.isWhitespace ≠ []) :
    ∃ d ∈ pystripList l, d.isWhitespace = false := by
  obtain ⟨c, cs, hx⟩ := List.exists_cons_of_ne_nil hne
  have hc : c.isWhitespace = false := dropWhile_head_false _ l c cs hx
  refine ⟨c, ?_, hc⟩
  unfold pystripList
  rw [hx]
  rw [List.mem_reverse]
  have : (c :: cs).reverse = cs.reverse ++ [c] := by simp
  rw [this, dropWhile_append_singleton _ _ _ hc]
  simp

/-- A string with a non-whitespace character strips to a non-empty string. -/
lemma pystrip_ne_empty_of_mem (s : String) (c : Char) (hc : c ∈ s.data)
    (hw : c.isWhitespace = false) : pystrip s ≠ "" := by
  have hdw : s.data.dropWhile Char.isWhitespace ≠ [] := by
    intro h
    rw [List.dropWhile_eq_nil_iff] at h
    rw [h c hc] at hw
    cases hw
  obtain ⟨d, hd, -⟩ := pystripList_exists_not_ws s.data hdw
  intro h
  have : pystripList s.data = [] := by
    have := congrArg String.data h
    exact this
  rw [this] at hd
  cases hd

/-- A non-trivially-stripped string owes it to a non-whitespace character that
survives the strip. -/
lemma exists_not_ws_of_pystrip_ne (s : String) (h : pystrip s ≠ "") :
    ∃ c ∈ (pystrip s).data, c.isWhitespace = false := by
  have hdw : s.data.dropWhile Char.isWhitespace ≠ [] := by
    intro hx
    apply h
    show (⟨pystripList s.data⟩ : String) = ""
    unfold pystripList
    rw [hx]
    rfl
  exact pystripList_exists_not_ws s.data hdw

/-- `pyjoin` starting from a head part: the head's characters lead the result. -/
lemma pyjoin_data_head (sep : String) (ps : List String) :
    ∀ acc : String, ∃ t, (ps.foldl (fun acc q => acc ++ sep ++ q) acc).data = acc.data ++ t := by
  induction ps with
  | nil => intro acc; exact ⟨[], by simp⟩
  | cons q qs ih =>
      intro acc
      obtain ⟨t, ht⟩ := ih (acc ++ sep ++ q)
      refine ⟨sep.data ++ q.data ++ t, ?_⟩
      rw [List.foldl_cons, ht]
      simp [String.data_append]

/-- Joining a non-empty list of parts that each hold a non-whitespace character
yields a string that strips to a non-empty string. -/
lemma pystrip_pyjoin_ne_empty (parts : List String) (hne : parts ≠ [])
    (hp : ∀ p ∈ parts, ∃ c ∈ p.data, c.isWhitespace = false) :
    pystrip (pyjoin " " parts) ≠ "" := by
  obtain ⟨p, ps, rfl⟩ := List.exists_cons_of_ne_nil hne
  obtain ⟨c, hc, hw⟩ := hp p (List.mem_cons_self p ps)
  obtain ⟨t, ht⟩ := pyjoin_data_head " " ps p
  refine pystrip_ne_empty_of_mem _ c ?_ hw
  show c ∈ (pyjoin " " (p :: ps)).data
  unfold pyjoin
  rw [ht]
  exact List.mem_append_left _ hc

/-! ## Block-level view of `format_transcript_with_speakers` -/

/-- A flushed speaker block: start time, speaker label and text fragments. -/
structure SpeakerBlock where
  bstart : Option ℚ
  bspeaker : String
  bparts : List String
deriving DecidableEq

/-- Loop state of the speaker formatter, with blocks kept as data instead of
rendered lines. -/
structure BlkState where
  blocks : List SpeakerBlock
  current_speaker : Option String
  current_text_parts : List String
  segment_start_time : Option ℚ
deriving DecidableEq

/-- `spkStep` with the flushed block kept as data. -/
def blkStep (st : BlkState) (segment : Segment) : BlkState :=
  let speaker := segment.speaker.getD "UNKNOWN"
  let text := pystrip segment.text
  let start_time := segment.start
  if text = "" then st
  else if some speaker ≠ st.current_speaker then
    let blocks :=
      match st.current_speaker with
      | some cs =>
          if st.current_text_parts ≠ [] then
            st.blocks ++ [⟨st.segment_start_time, cs, st.current_text_parts⟩]
          else st.blocks
      | none => st.blocks
    ⟨blocks, some speaker, [text], some start_time⟩
  else
    { st with current_text_parts := st.current_text_parts ++ [text] }

/-- Final flush of the block-level state. -/
def blkFinish (st : BlkState) : List SpeakerBlock :=
  match st.current_speaker with
  | some cs =>
      if st.current_text_parts ≠ [] then
        st.blocks ++ [⟨st.segment_start_time, cs, st.current_text_parts⟩]
      else st.blocks
  | none => st.blocks

/-- Initial block-level state. -/
def blkInit : BlkState := ⟨[], none, [], none⟩

/-- The speaker blocks the formatter flushes for a segment list. -/
def speakerBlocks (segments : List Segment) : List SpeakerBlock :=
  blkFinish (segments.foldl blkStep blkInit)

/-- Rendering of a block as one output line. -/
def renderBlock (b : SpeakerBlock) : String :=
  renderBlockLine b.bstart b.bspeaker b.bparts

/-- Correspondence between the rendered-line state and the block-level state. -/
def blkRel (b : BlkState) (s : SpkState) : Prop :=
  s.lines = b.blocks.map renderBlock ∧ s.current_speaker = b.current_speaker ∧
    s.current_text_parts = b.current_text_parts ∧
    s.segment_start_time = b.segment_start_time

lemma blkRel_step (b : BlkState) (s : SpkState) (seg : Segment) (h : blkRel b s) :
    blkRel (blkStep b seg) (spkStep s seg) := by
  obtain ⟨h1, h2, h3, h4⟩ := h
  cases s with
  | mk slines scs sparts stime =>
    cases b with
    | mk blocks bcs bparts btime =>
      simp only at h1 h2 h3 h4
      subst h1 h2 h3 h4
      unfold blkStep spkStep blkRel
      by_cases ht : pystrip seg.text = ""
      · simp [ht]
      · by_cases hsp : some (seg.speaker.getD "UNKNOWN") = scs
        · simp [ht, hsp]
        · cases scs with
          | none => simp [ht, hsp]
          | some cs =>
              by_cases hp : sparts = [] <;> simp [ht, hsp, hp, renderBlock]

lemma blkRel_fold (segs : List Segment) :
    ∀ (b : BlkState) (s : SpkState), blkRel b s →
      blkRel (segs.foldl blkStep b) (segs.foldl spkStep s) := by
  induction segs with
  | nil => intro b s h; exact h
  | cons seg rest ih =>
      intro b s h
      exact ih _ _ (blkRel_step b s seg h)

lemma blkRel_finish (b : BlkState) (s : SpkState) (h : blkRel b s) :
    spkFinish s = (blkFinish b).map renderBlock := by
  obtain ⟨h1, h2, h3, h4⟩ := h
  unfold spkFinish blkFinish
  cases hcs : b.current_speaker with
  | none => simp [h1, h2, hcs]
  | some cs =>
      by_cases hp : b.current_text_parts = [] <;>
        simp [h1, h2, h3, h4, hcs, hp, renderBlock]

/-- Invariant of the speaker-formatter loop state: flushed blocks carry a
non-empty fragment list of non-blank fragments and a set start time; the open
block, when a speaker is set, has a non-empty fragment list and a set start
time; with no speaker set, fragments and start time are empty. -/
def blkInv (st : BlkState) : Prop :=
  (∀ b ∈ st.blocks,
      b.bparts ≠ [] ∧ (∀ p ∈ b.bparts, ∃ c ∈ p.data, c.isWhitespace = false) ∧
        b.bstart ≠ none) ∧
    (st.current_speaker = none →
      st.current_text_parts = [] ∧ st.segment_start_time = none) ∧
    (st.current_speaker ≠ none →
      st.current_text_parts ≠ [] ∧ st.segment_start_time ≠ none) ∧
    (∀ p ∈ st.current_text_parts, ∃ c ∈ p.data, c.isWhitespace = false)

lemma blkInv_init : blkInv blkInit := by
  refine ⟨?_, ?_, ?_, ?_⟩ <;> simp [blkInit]

lemma blkInv_step (st : BlkState) (seg : Segment) (h : blkInv st) :
    blkInv (blkStep st seg) := by
  obtain ⟨hb, hn, hs, hp⟩ := h
  unfold blkStep
  by_cases ht : pystrip seg.text = ""
  · simpa [ht] using ⟨hb, hn, hs, hp⟩
  · obtain ⟨c, hc, hw⟩ := exists_not_ws_of_pystrip_ne seg.text ht
    by_cases hsp : some (seg.speaker.getD "UNKNOWN") = st.current_speaker
    · have hcs : st.current_speaker ≠ none := by rw [← hsp]; simp
      refine ⟨?_, ?_, ?_, ?_⟩ <;> simp [ht, hsp]
      · exact hb
      · intro habs; exact absurd habs hcs
      · intro _; exact (hs hcs).2
      · intro p hp'
        rcases hp' with hp' | hp'
        · exact hp p hp'
        · subst hp'
          exact ⟨c, hc, hw⟩
    · cases hcs : st.current_speaker with
      | none =>
          obtain ⟨hpe, hse⟩ := hn hcs
          refine ⟨?_, ?_, ?_, ?_⟩ <;> simp [ht, hcs ▸ hsp, hcs]
          · exact hb
          · exact ⟨c, hc, hw⟩
      | some cs =>
          obtain ⟨hpe, hse⟩ := hs (by rw [hcs]; simp)
          refine ⟨?_, ?_, ?_, ?_⟩ <;> simp [ht, hcs ▸ hsp, hcs, hpe]
          · intro b hbmem
            rcases hbmem with hbmem | hbmem
            · exact hb b hbmem
            · subst hbmem
              exact ⟨hpe, hp, hse⟩
          · exact ⟨c, hc, hw⟩

lemma blkInv_fold :
    ∀ (segs : List Segment) (st : BlkState), blkInv st →
      blkInv (segs.foldl blkStep st) := by
  intro segs
  induction segs with
  | nil => intro st h; exact h
  | cons seg rest ih => intro st h; exact ih _ (blkInv_step st seg h)

/-- The start times recorded so far: flushed block starts followed by the open
block's start. -/
def chainOf (st : BlkState) : List ℚ :=
  st.blocks.filterMap SpeakerBlock.bstart ++ st.segment_start_time.toList

lemma chain_step (st : BlkState) (seg : Segment) (h : blkInv st) :
    chainOf (blkStep st seg) = chainOf st ∨
      chainOf (blkStep st seg) = chainOf st ++ [seg.start] := by
  obtain ⟨hb, hn, hs, hp⟩ := h
  unfold blkStep
  by_cases ht : pystrip seg.text = ""
  · left; simp [ht]
  · by_cases hsp : some (seg.speaker.getD "UNKNOWN") = st.current_speaker
    · left; simp [ht, hsp, chainOf]
    · cases hcs : st.current_speaker with
      | none =>
          obtain ⟨hpe, hse⟩ := hn hcs
          right
          simp [ht, hcs ▸ hsp, hcs, chainOf, hse]
      | some cs =>
          obtain ⟨hpe, hse⟩ := hs (by rw [hcs]; simp)
          obtain ⟨t, htt⟩ := Option.ne_none_iff_exists'.mp hse
          right
          simp [ht, hcs ▸ hsp, hcs, chainOf, hpe, htt]

lemma chain_fold_pairwise :
    ∀ (segs : List Segment) (st : BlkState), blkInv st →
      List.Pairwise (· ≤ ·) (chainOf st ++ segs.map Segment.start) →
      List.Pairwise (· ≤ ·) (chainOf (segs.foldl blkStep st)) := by
  intro segs
  induction segs with
  | nil => intro st _ hp; simpa using hp
  | cons seg rest ih =>
      intro st h hp
      have h' := blkInv_step st seg h
      rcases chain_step st seg h with hc | hc
      · refine ih _ h' ?_
        rw [hc]
        refine hp.sublist ?_
        rw [List.map_cons]
        exact (List.Sublist.refl _).append ((List.Sublist.refl _).cons seg.start)
      · refine ih _ h' ?_
        rw [hc]
        simpa [List.append_assoc] using hp

lemma blkFinish_blocks (st : BlkState) (h : blkInv st) :
    (∀ b ∈ blkFinish st,
        b.bparts ≠ [] ∧ (∀ p ∈ b.bparts, ∃ c ∈ p.data, c.isWhitespace = false) ∧
          b.bstart ≠ none) ∧
      (blkFinish st).filterMap SpeakerBlock.bstart = chainOf st := by
  obtain ⟨hb, hn, hs, hp⟩ := h
  unfold blkFinish
  cases hcs : st.current_speaker with
  | none =>
      obtain ⟨hpe, hse⟩ := hn hcs
      exact ⟨hb, by simp [chainOf, hse]⟩
  | some cs =>
      obtain ⟨hpe, hse⟩ := hs (by rw [hcs]; simp)
      obtain ⟨t, htt⟩ := Option.ne_none_iff_exists'.mp hse
      refine ⟨?_, ?_⟩
      · intro b hbmem
        have hbmem' :
            b ∈ st.blocks ++ [⟨st.segment_start_time, cs, st.current_text_parts⟩] := by
          simpa [hpe] using hbmem
        rw [List.mem_append] at hbmem'
        rcases hbmem' with hbmem' | hbmem'
        · exact hb b hbmem'
        · rw [List.mem_singleton] at hbmem'
          subst hbmem'
          exact ⟨hpe, hp, hse⟩
      · simp [hpe, chainOf, htt]

lemma map_getD_eq_filterMap (bs : List SpeakerBlock)
    (h : ∀ b ∈ bs, b.bstart ≠ none) :
    bs.map (fun b => b.bstart.getD 0) = bs.filterMap SpeakerBlock.bstart := by
  induction bs with
  | nil => rfl
  | cons b rest ih =>
      obtain ⟨t, htt⟩ := Option.ne_none_iff_exists'.mp (h b (List.mem_cons_self b rest))
      rw [List.map_cons, List.filterMap_cons, htt]
      simp only [Option.getD_some]
      rw [ih fun b' hb' => h b' (List.mem_cons_of_mem b hb')]

/-- The speaker formatter renders exactly the speaker blocks, joined by blank lines. -/
lemma format_with_speakers_eq_blocks (segments : List Segment) :
    format_transcript_with_speakers segments =
      (if segments = [] then "No transcription results."
       else pyjoin "\n\n" ((speakerBlocks segments).map renderBlock)) := by
  unfold format_transcript_with_speakers speakerBlocks
  have h0 : blkRel blkInit spkInit := by
    constructor <;> simp [blkInit, spkInit]
  have h1 := blkRel_fold segments blkInit spkInit h0
  rw [blkRel_finish _ _ h1]

/-! ## Pair-level view of `format_transcript_simple` -/

/-- The (start, stripped text) pairs for which the simple formatter emits a line. -/
def simplePairs (segments : List Segment) : List (ℚ × String) :=
  segments.filterMap fun segment =>
    if pystrip segment.text = "" then none
    else some (segment.start, pystrip segment.text)

/-- Rendering of one simple-formatter line. -/
def renderPair (pr : ℚ × String) : String :=
  "[" ++ format_timestamp pr.1 ++ "] " ++ pr.2

lemma simpleStep_fold (segs : List Segment) :
    ∀ acc : List String,
      segs.foldl simpleStep acc = acc ++ (simplePairs segs).map renderPair := by
  induction segs with
  | nil => intro acc; simp [simplePairs]
  | cons seg rest ih =>
      intro acc
      by_cases ht : pystrip seg.text = ""
      · rw [List.foldl_cons]
        rw [show simpleStep acc seg = acc from by simp [simpleStep, ht]]
        rw [ih acc]
        simp [simplePairs, List.filterMap_cons, ht]
      · rw [List.foldl_cons]
        rw [show simpleStep acc seg =
            acc ++ ["[" ++ format_timestamp seg.start ++ "] " ++ pystrip seg.text] from by
          simp [simpleStep, ht]]
        rw [ih]
        simp [simplePairs, List.filterMap_cons, ht, renderPair]

/-- The simple formatter renders exactly the kept pairs, joined by blank lines. -/
lemma format_simple_eq_pairs (segments : List Segment) :
    format_transcript_simple segments =
      (if segments = [] then "No transcription results."
       else pyjoin "\n\n" ((simplePairs segments).map renderPair)) := by
  unfold format_transcript_simple simpleLines
  rw [simpleStep_fold segments []]
  rfl

lemma simplePairs_fst_sublist (segs : List Segment) :
    List.Sublist ((simplePairs segs).map Prod.fst) (segs.map Segment.start) := by
  induction segs with
  | nil => simp [simplePairs]
  | cons seg rest ih =>
      by_cases ht : pystrip seg.text = ""
      · rw [List.map_cons]
        simp only [simplePairs, List.filterMap_cons, ht, if_pos rfl]
        exact (ih : List.Sublist _ _).cons seg.start
      · rw [List.map_cons]
        simp only [simplePairs, List.filterMap_cons, ht, if_neg ht, List.map_cons]
        exact (ih : List.Sublist _ _).cons₂ seg.start

/-- Stripping is stable: a string that strips non-empty re-strips non-empty. -/
lemma pystrip_pystrip_ne (s : String) (h : pystrip s ≠ "") :
    pystrip (pystrip s) ≠ "" := by
  obtain ⟨c, hc, hw⟩ := exists_not_ws_of_pystrip_ne s h
  exact pystrip_ne_empty_of_mem _ c hc hw

/-! ## Blank-input fold lemmas -/

lemma spk_fold_blank :
    ∀ (segs : List Segment), (∀ seg ∈ segs, pystrip seg.text = "") →
      ∀ st : SpkState, segs.foldl spkStep st = st := by
  intro segs
  induction segs with
  | nil => intro _ st; rfl
  | cons seg rest ih =>
      intro hall st
      rw [List.foldl_cons,
        show spkStep st seg = st from by simp [spkStep, hall seg (by simp)]]
      exact ih (fun s hs => hall s (List.mem_cons_of_mem _ hs)) st

lemma simplePairs_blank (segs : List Segment)
    (hall : ∀ seg ∈ segs, pystrip seg.text = "") : simplePairs segs = [] := by
  induction segs with
  | nil => rfl
  | cons seg rest ih =>
      rw [simplePairs, List.filterMap_cons, if_pos (hall seg (by simp))]
      exact ih fun s hs => hall s (List.mem_cons_of_mem _ hs)

/-! ## Invariant of the rendered-line loop state -/

/-- When a speaker block is open, its fragment list is non-empty. -/
def spkInv (st : SpkState) : Prop :=
  st.current_speaker ≠ none → st.current_text_parts ≠ []

lemma spkInv_step (st : SpkState) (seg : Segment) (h : spkInv st) :
    spkInv (spkStep st seg) := by
  unfold spkStep spkInv
  by_cases ht : pystrip seg.text = ""
  · simpa [ht] using h
  · by_cases hsp : some (seg.speaker.getD "UNKNOWN") = st.current_speaker
    · simp [ht, hsp]
    · simp [ht, hsp]

lemma spkInv_fold :
    ∀ (segs : List Segment) (st : SpkState), spkInv st →
      spkInv (segs.foldl spkStep st) := by
  intro segs
  induction segs with
  | nil => intro st h; exact h
  | cons seg rest ih => intro st h; exact ih _ (spkInv_step st seg h)

/-! ## Claim theorems for the formatters -/

/-- C1: on segments [(0, A, "hello"), (1, A, "world"), (3, B, "hi")], the
speaker formatter merges the consecutive same-speaker segments into one line
timestamped with the first segment's start and yields exactly the two blocks
separated by one blank line. -/
theorem claim_C1_speaker_grouping :
    format_transcript_with_speakers
      [⟨0, some "A", "hello"⟩, ⟨1, some "A", "world"⟩, ⟨3, some "B", "hi"⟩] =
      "[00:00:00] A: hello world\n\n[00:00:03] B: hi" := by
  simp [format_transcript_with_speakers, spkFinish, spkInit, spkStep, renderBlockLine,
    pyjoin, ts_eval_0, ts_eval_3, pystrip, pystripList]

/-- C2 counterexample: on [(0, A, ""), (1, A, "ok")] the speaker formatter does
NOT return "[00:00:00] A: ok" — the empty-text segment is skipped before it can
seed a block, so the block timestamp is the second segment's start. -/
theorem claim_C2_counterexample :
    format_transcript_with_speakers [⟨0, some "A", ""⟩, ⟨1, some "A", "ok"⟩] ≠
      "[00:00:00] A: ok" := by
  have h : format_transcript_with_speakers [⟨0, some "A", ""⟩, ⟨1, some "A", "ok"⟩] =
      "[00:00:01] A: ok" := by
    simp [format_transcript_with_speakers, spkFinish, spkInit, spkStep, renderBlockLine,
      pyjoin, ts_eval_1, pystrip, pystripList]
  rw [h]
  decide

/-- C2 amended: on [(0, A, ""), (1, A, "ok")] the empty-text segment is dropped
without creating an empty block and the result is the single block
"[00:00:01] A: ok", timestamped with the first non-empty segment's start. -/
theorem claim_C2_amended_single_block :
    format_transcript_with_speakers [⟨0, some "A", ""⟩, ⟨1, some "A", "ok"⟩] =
      "[00:00:01] A: ok" := by
  simp [format_transcript_with_speakers, spkFinish, spkInit, spkStep, renderBlockLine,
    pyjoin, ts_eval_1, pystrip, pystripList]

/-- C4: on an empty segment sequence both formatters return the same fixed
sentinel string, which is not the empty string. -/
theorem claim_C4_empty_sentinel :
    format_transcript_with_speakers [] = "No transcription results." ∧
      format_transcript_simple [] = "No transcription results." ∧
      ("No transcription results." : String) ≠ "" := by
  refine ⟨by decide, by decide, by decide⟩

/-- C5: for every segment sequence, (a) if the segments' starts are in
chronological order then the starts of the emitted speaker blocks and of the
emitted simple lines are in the same order; (b) every emitted speaker block has
a non-empty fragment list whose space-joined text is non-empty after stripping;
(c) every emitted simple line's text is non-empty after stripping; (d)/(e) both
formatters render exactly these blocks/pairs joined by blank lines. -/
theorem claim_C5_line_order_and_no_blank_lines :
    ∀ segments : List Segment,
      (List.Pairwise (· ≤ ·) (segments.map Segment.start) →
        List.Pairwise (· ≤ ·) ((speakerBlocks segments).map fun b => b.bstart.getD 0) ∧
          List.Pairwise (· ≤ ·) ((simplePairs segments).map Prod.fst)) ∧
      (∀ b ∈ speakerBlocks segments,
        b.bparts ≠ [] ∧ pystrip (pyjoin " " b.bparts) ≠ "") ∧
      (∀ pr ∈ simplePairs segments, pystrip pr.2 ≠ "") ∧
      format_transcript_with_speakers segments =
        (if segments = [] then "No transcription results."
         else pyjoin "\n\n" ((speakerBlocks segments).map renderBlock)) ∧
      format_transcript_simple segments =
        (if segments = [] then "No transcription results."
         else pyjoin "\n\n" ((simplePairs segments).map renderPair)) := by
  intro segments
  have hinv := blkInv_fold segments blkInit blkInv_init
  obtain ⟨hfb, hfc⟩ := blkFinish_blocks _ hinv
  refine ⟨?_, ?_, ?_, format_with_speakers_eq_blocks segments,
    format_simple_eq_pairs segments⟩
  · intro hsorted
    constructor
    · rw [show (speakerBlocks segments).map (fun b => b.bstart.getD 0) =
          (speakerBlocks segments).filterMap SpeakerBlock.bstart from
        map_getD_eq_filterMap _ fun b hb => (hfb b hb).2.2]
      show List.Pairwise (· ≤ ·)
        ((blkFinish (segments.foldl blkStep blkInit)).filterMap SpeakerBlock.bstart)
      rw [hfc]
      exact chain_fold_pairwise segments blkInit blkInv_init
        (by simpa [chainOf, blkInit] using hsorted)
    · exact hsorted.sublist (simplePairs_fst_sublist segments)
  · intro b hb
    have hb' : b ∈ blkFinish (segments.foldl blkStep blkInit) := hb
    exact ⟨(hfb b hb').1,
      pystrip_pyjoin_ne_empty _ (hfb b hb').1 (hfb b hb').2.1⟩
  · intro pr hpr
    obtain ⟨seg, hseg, heq⟩ := List.mem_filterMap.mp hpr
    by_cases h : pystrip seg.text = ""
    · rw [if_pos h] at heq
      cases heq
    · rw [if_neg h] at heq
      injection heq with heq
      subst heq
      exact pystrip_pystrip_ne seg.text h

/-- Witness for C5 at a concrete one-segment input. -/
theorem claim_C5_witness :
    List.Pairwise (· ≤ ·)
        ((speakerBlocks [⟨0, some "A", "a"⟩]).map fun b => b.bstart.getD 0) ∧
      List.Pairwise (· ≤ ·) ((simplePairs [⟨0, some "A", "a"⟩]).map Prod.fst) :=
  (claim_C5_line_order_and_no_blank_lines [⟨0, some "A", "a"⟩]).1 (by simp)

/-- C9: at every point of the speaker-formatter loop, an open block has a
non-empty fragment list; consequently a speaker change at a segment with
non-empty stripped text flushes exactly one line for the previous block. -/
theorem claim_C9_open_block_invariant :
    (∀ segments : List Segment,
        (segments.foldl spkStep spkInit).current_speaker ≠ none →
        (segments.foldl spkStep spkInit).current_text_parts ≠ []) ∧
      (∀ (st : SpkState) (segment : Segment) (cs : String),
        (st.current_speaker ≠ none → st.current_text_parts ≠ []) →
        pystrip segment.text ≠ "" →
        some (segment.speaker.getD "UNKNOWN") ≠ st.current_speaker →
        st.current_speaker = some cs →
        (spkStep st segment).lines =
          st.lines ++ [renderBlockLine st.segment_start_time cs st.current_text_parts]) := by
  constructor
  · intro segments
    exact spkInv_fold segments spkInit (by simp [spkInv, spkInit])
  · intro st seg cs hinv ht hsp hcs
    have hpe : st.current_text_parts ≠ [] := hinv (by rw [hcs]; simp)
    have hne : seg.speaker.getD "UNKNOWN" ≠ cs := by
      rw [hcs] at hsp
      simpa using hsp
    unfold spkStep
    simp [ht, hcs, hpe, hne]

/-- Witness for C9: a concrete state and a concrete speaker change. -/
theorem claim_C9_witness :
    (spkStep ⟨[], some "A", ["hi"], some 0⟩ ⟨1, some "B", "yo"⟩).lines =
      [renderBlockLine (some 0) "A" ["hi"]] ∧
      (([⟨0, some "A", "x"⟩] : List Segment).foldl spkStep spkInit).current_text_parts ≠
        [] := by
  constructor
  · have h := claim_C9_open_block_invariant.2 ⟨[], some "A", ["hi"], some 0⟩
      ⟨1, some "B", "yo"⟩ "A" (by simp) (by decide) (by decide) rfl
    simpa using h
  · exact claim_C9_open_block_invariant.1 [⟨0, some "A", "x"⟩]
      (by simp [spkStep, spkInit, pystrip, pystripList])

/-- C10: a non-empty segment sequence whose every text strips to empty makes
both formatters return the empty string, not the empty-input sentinel. -/
theorem claim_C10_blank_segments :
    ∀ segments : List Segment, segments ≠ [] →
      (∀ seg ∈ segments, pystrip seg.text = "") →
      format_transcript_with_speakers segments = "" ∧
        format_transcript_simple segments = "" := by
  intro segs hne hall
  constructor
  · unfold format_transcript_with_speakers
    rw [if_neg hne, spk_fold_blank segs hall spkInit]
    rfl
  · rw [format_simple_eq_pairs, if_neg hne, simplePairs_blank segs hall]
    rfl

/-- Witness for C10 at a single whitespace-only segment. -/
theorem claim_C10_witness :
    format_transcript_with_speakers [⟨0, none, " "⟩] = "" ∧
      format_transcript_simple [⟨0, none, " "⟩] = "" :=
  claim_C10_blank_segments [⟨0, none, " "⟩] (by simp) (by decide)

/-! ## C3: timestamp formatting against the spec formula -/

/-- Modelled from the spec's words for comparison with `format_timestamp`:
hours = floor(s/3600), minutes = floor((s mod 3600)/60),
seconds = floor(s mod 60), each zero-padded to two digits with hours widening
(`s mod b` being the mathematical remainder `s - b*floor(s/b)`). -/
def timestampSpec (s : ℚ) : String :=
  pad2 ⌊s / 3600⌋ ++ ":" ++ pad2 ⌊(s - 3600 * (⌊s / 3600⌋ : ℚ)) / 60⌋ ++ ":" ++
    pad2 ⌊s - 60 * (⌊s / 60⌋ : ℚ)⌋

/-- Python's `%` with a positive divisor returns a non-negative value. -/
lemma pyMod_nonneg (a b : ℚ) (hb : 0 < b) : 0 ≤ pyMod a b := by
  unfold pyMod
  have h := Int.floor_le (a / b)
  have h2 : (⌊a / b⌋ : ℚ) * b ≤ a / b * b := mul_le_mul_of_nonneg_right h hb.le
  rw [div_mul_cancel₀ a hb.ne'] at h2
  linarith

/-- C3: for every non-negative rational number of seconds, `format_timestamp`
computes the spec's floor formula (truncation, not rounding, at each unit
boundary), and the spec's three sample points evaluate as stated. -/
theorem claim_C3_timestamp_truncation :
    (∀ s : ℚ, 0 ≤ s → format_timestamp s = timestampSpec s) ∧
      format_timestamp 0 = "00:00:00" ∧
      format_timestamp 3661 = "01:01:01" ∧
      format_timestamp (599 / 10) = "00:00:59" := by
  refine ⟨?_, ts_eval_0, ts_eval_3661, ts_eval_59_9⟩
  intro s hs
  have hfl1 : 0 ≤ ⌊s / 3600⌋ :=
    Int.floor_nonneg.mpr (div_nonneg hs (by norm_num))
  have hm : 0 ≤ pyMod s 3600 := pyMod_nonneg s 3600 (by norm_num)
  have hfl2 : 0 ≤ ⌊pyMod s 3600 / 60⌋ :=
    Int.floor_nonneg.mpr (div_nonneg hm (by norm_num))
  have hm60 : 0 ≤ pyMod s 60 := pyMod_nonneg s 60 (by norm_num)
  have A : pyInt (pyFloorDiv s 3600) = ⌊s / 3600⌋ := by
    rw [pyFloorDiv, pyInt, if_pos (by exact_mod_cast hfl1), Int.floor_intCast]
  have B : pyInt (pyFloorDiv (pyMod s 3600) 60) =
      ⌊(s - 3600 * (⌊s / 3600⌋ : ℚ)) / 60⌋ := by
    rw [pyFloorDiv, pyInt, if_pos (by exact_mod_cast hfl2), Int.floor_intCast, pyMod]
  have C : pyInt (pyMod s 60) = ⌊s - 60 * (⌊s / 60⌋ : ℚ)⌋ := by
    rw [pyInt, if_pos hm60, pyMod]
  show pad2 (pyInt (pyFloorDiv s 3600)) ++ ":" ++
      pad2 (pyInt (pyFloorDiv (pyMod s 3600) 60)) ++ ":" ++
      pad2 (pyInt (pyMod s 60)) = _
  rw [A, B, C]
  rfl

/-- Witness for C3 at a concrete non-negative input. -/
theorem claim_C3_witness : format_timestamp 2 = timestampSpec 2 :=
  claim_C3_timestamp_truncation.1 2 (by norm_num)

/-! ## Oracle model of `transcribe_audio` -/

/-- Python truthiness of an optional string: `None` and `""` are falsy. -/
def pyTruthy : Option String → Bool
  | none => false
  | some s => s != ""

/-- Outcomes of the external whisperx/torch calls made by `transcribe_audio`,
plus ambient process state. `Except.error e` stands for an exception whose
`str(e)` is `e`. The `transcribe`/`align`/`diarize` oracles return the
`segments` sequence of the result mapping (the orchestrator only ever reads
`result.get("segments", [])`); thread-count plumbing and speaker-count bounds
only parametrise the external calls and are not observable here. -/
structure TEnv where
  hf_token_var : Option String
  huggingface_token_var : Option String
  cuda_available : Bool
  load_model : Except String Unit
  transcribe : Except String (List Segment)
  align : Except String (List Segment)
  diarize : Except String (List Segment)
  temp_dir : String

/-- `get_hf_token_from_env`: `os.getenv("HF_TOKEN") or os.getenv("HUGGINGFACE_TOKEN")`. -/
def get_hf_token_from_env (env : TEnv) : Option String :=
  if pyTruthy env.hf_token_var then env.hf_token_var else env.huggingface_token_var

/-- `get_device_and_compute_type` from `app.py`. -/
def get_device_and_compute_type (env : TEnv) : String × String :=
  if env.cuda_available then ("cuda", "float16") else ("cpu", "int8")

/-- The file-name component after the last path separator. -/
def pathFileName (s : String) : String :=
  ⟨(s.data.reverse.takeWhile fun c => c != '/').reverse⟩

/-- Python's `Path(...).stem`: file name minus a final suffix, when the last
dot sits at a positive index. -/
def pathStem (s : String) : String :=
  let name := (pathFileName s).data
  let after := name.reverse.takeWhile fun c => c != '.'
  if after.length + 1 < name.length then ⟨name.take (name.length - after.length - 1)⟩
  else ⟨name⟩

/-- Line 143 of `app.py`:
`effective_token = hf_token.strip() if hf_token and hf_token.strip() else env_token`. -/
def effective_token (hf_token env_token : Option String) : Option String :=
  match hf_token with
  | some t => if t ≠ "" ∧ pystrip t ≠ "" then some (pystrip t) else env_token
  | none => env_token

/-- The condition `hf_token and hf_token.strip()` used for the token-source label. -/
def uiTokenGiven : Option String → Bool
  | some t => decide (t ≠ "" ∧ pystrip t ≠ "")
  | none => false

/-- `transcribe_audio` from `app.py`, with external calls resolved by the oracle
environment. Returns the `(transcript, output file path)` pair together with the
list of `(fraction, description)` progress events emitted, in order. The
output-file write itself is an external effect; only its path is modelled. -/
def transcribe_audio (env : TEnv) (audio_file : Option String) (model_size : String)
    (hf_token : Option String) (min_speakers max_speakers : Option ℤ)
    (num_threads : ℤ) : (String × Option String) × List (ℚ × String) :=
  if ¬ pyTruthy audio_file then (("Please upload an audio file.", none), [])
  else
    let env_token := get_hf_token_from_env env
    let eff := effective_token hf_token env_token
    let prog0 : List (ℚ × String) := [(1/20, "Loading Whisper model...")]
    match env.load_model with
    | .error e => (("Error loading model: " ++ e, none), prog0)
    | .ok _ =>
      let prog1 := prog0 ++
        [(3/20, "Transcribing audio (this may take a while for long files)...")]
      match env.transcribe with
      | .error e => (("Error during transcription: " ++ e, none), prog1)
      | .ok segs0 =>
        let prog2 := prog1 ++ [(1/2, "Aligning transcript...")]
        let alignRes : List Segment × List (ℚ × String) :=
          match env.align with
          | .ok aligned => (aligned, prog2)
          | .error e =>
              (segs0, prog2 ++ [(1/2, "Alignment warning: " ++ e ++ ", continuing...")])
        let segs1 := alignRes.1
        let prog3 := alignRes.2
        let diarRes : List Segment × Bool × List (ℚ × String) :=
          if pyTruthy eff then
            let token_source := if uiTokenGiven hf_token then "UI input" else ".env file"
            let p := prog3 ++
              [(13/20, "Performing speaker diarization (token from " ++ token_source ++ ")...")]
            match env.diarize with
            | .ok dsegs => (dsegs, true, p)
            | .error e =>
                (segs1, false,
                  p ++ [(13/20, "Diarization failed: " ++ e ++
                    ", continuing without speaker labels...")])
          else (segs1, false, prog3)
        let segs2 := diarRes.1
        let diarization_success := diarRes.2.1
        let prog4 := diarRes.2.2 ++ [(9/10, "Formatting output...")]
        let transcript0 :=
          if diarization_success then format_transcript_with_speakers segs2
          else format_transcript_simple segs2
        let transcript :=
          if ¬ diarization_success ∧ ¬ pyTruthy eff then
            "NOTE: No HuggingFace token provided (neither in UI nor .env file) - speaker diarization disabled.\n\n" ++
              transcript0
          else transcript0
        let prog5 := prog4 ++ [(19/20, "Saving transcript...")]
        let output_path := env.temp_dir ++ "/" ++ pathStem (audio_file.getD "") ++ "_transcript.txt"
        let prog6 := prog5 ++ [(1, "Complete!")]
        ((transcript, some output_path), prog6)

/-- C6: a missing audio input, a model-load failure, or a transcription failure
is fatal: `transcribe_audio` aborts with the failure rendered as the result
text and no output file path. -/
theorem claim_C6_fatal_failures :
    ∀ (env : TEnv) (audio_file : Option String) (model_size : String)
      (hf_token : Option String) (mins maxs : Option ℤ) (nthreads : ℤ),
      (pyTruthy audio_file = false →
        transcribe_audio env audio_file model_size hf_token mins maxs nthreads =
          (("Please upload an audio file.", none), [])) ∧
      (∀ e, pyTruthy audio_file = true → env.load_model = .error e →
        (transcribe_audio env audio_file model_size hf_token mins maxs nthreads).1 =
          ("Error loading model: " ++ e, none)) ∧
      (∀ e, pyTruthy audio_file = true → env.load_model = .ok () →
        env.transcribe = .error e →
        (transcribe_audio env audio_file model_size hf_token mins maxs nthreads).1 =
          ("Error during transcription: " ++ e, none)) := by
  intro env audio model hf mins maxs nth
  refine ⟨?_, ?_, ?_⟩
  · intro h
    simp [transcribe_audio, h]
  · intro e ha he
    simp [transcribe_audio, ha, he]
  · intro e ha hok he
    simp [transcribe_audio, ha, hok, he]

/-- Witness for C6: a forced model-load failure on a concrete environment. -/
theorem claim_C6_witness :
    (transcribe_audio ⟨none, none, false, .error "boom", .ok [], .ok [], .ok [], "/tmp"⟩
        (some "a.wav") "medium" none none none 8).1 =
      ("Error loading model: boom", none) :=
  (claim_C6_fatal_failures ⟨none, none, false, .error "boom", .ok [], .ok [], .ok [], "/tmp"⟩
    (some "a.wav") "medium" none none none 8).2.1 "boom" (by decide) rfl

/-- C7: the trimmed UI token, when non-blank, is the effective credential and
overrides the environment token; a missing or blank UI token falls back to the
environment token; and with no effective token the pipeline still completes
(produces an output path), never runs the diarization stage, and prefixes the
transcript with the no-token notice. -/
theorem claim_C7_credential_resolution :
    ∀ (env : TEnv) (hf_token : Option String),
      (∀ t, hf_token = some t → t ≠ "" → pystrip t ≠ "" →
        effective_token hf_token (get_hf_token_from_env env) = some (pystrip t)) ∧
      (hf_token = none →
        effective_token hf_token (get_hf_token_from_env env) =
          get_hf_token_from_env env) ∧
      (∀ t, hf_token = some t → pystrip t = "" →
        effective_token hf_token (get_hf_token_from_env env) =
          get_hf_token_from_env env) ∧
      (∀ (audio_file : Option String) (model_size : String) (mins maxs : Option ℤ)
          (nthreads : ℤ) (segs : List Segment),
        pyTruthy audio_file = true →
        env.load_model = .ok () →
        env.transcribe = .ok segs →
        pyTruthy (effective_token hf_token (get_hf_token_from_env env)) = false →
        (transcribe_audio env audio_file model_size hf_token mins maxs nthreads).1.2 ≠
            none ∧
          (∀ pr ∈ (transcribe_audio env audio_file model_size hf_token mins maxs
              nthreads).2, pr.1 ≠ 13/20) ∧
          (∃ r, (transcribe_audio env audio_file model_size hf_token mins maxs
              nthreads).1.1 =
            "NOTE: No HuggingFace token provided (neither in UI nor .env file) - speaker diarization disabled.\n\n" ++
              r)) := by
  intro env hf
  refine ⟨?_, ?_, ?_, ?_⟩
  · intro t ht hne hsne
    subst ht
    simp [effective_token, hne, hsne]
  · intro h
    subst h
    rfl
  · intro t ht hse
    subst ht
    simp [effective_token, hse]
  · intro audio model mins maxs nth segs ha hok htr heff
    refine ⟨?_, ?_, ?_⟩
    · cases hal : env.align with
      | ok a => simp [transcribe_audio, ha, hok, htr, hal, heff]
      | error e => simp [transcribe_audio, ha, hok, htr, hal, heff]
    · intro pr hpr
      cases hal : env.align with
      | ok a =>
          simp [transcribe_audio, ha, hok, htr, hal, heff] at hpr
          rcases hpr with h | h | h | h | h | h <;> rw [show pr.1 = _ from by rw [h]] <;>
            norm_num
      | error e =>
          simp [transcribe_audio, ha, hok, htr, hal, heff] at hpr
          rcases hpr with h | h | h | h | h | h | h <;> rw [show pr.1 = _ from by rw [h]] <;>
            norm_num
    · cases hal : env.align with
      | ok a =>
          exact ⟨format_transcript_simple a, by
            simp [transcribe_audio, ha, hok, htr, hal, heff]⟩
      | error e =>
          exact ⟨format_transcript_simple segs, by
            simp [transcribe_audio, ha, hok, htr, hal, heff]⟩

/-- Witness for C7: a concrete tokenless environment and a concrete UI token. -/
theorem claim_C7_witness :
    effective_token (some " tok ")
        (get_hf_token_from_env ⟨some "envtok", none, false, .ok (), .ok [], .ok [], .ok [], "/tmp"⟩) =
      some (pystrip " tok ") ∧
      (transcribe_audio ⟨none, none, false, .ok (), .ok [], .ok [], .ok [], "/tmp"⟩
          (some "a.wav") "medium" none none none 8).1.2 ≠ none :=
  ⟨(claim_C7_credential_resolution
        ⟨some "envtok", none, false, .ok (), .ok [], .ok [], .ok [], "/tmp"⟩
        (some " tok ")).1 " tok " rfl (by decide) (by decide),
    ((claim_C7_credential_resolution ⟨none, none, false, .ok (), .ok [], .ok [], .ok [], "/tmp"⟩
        none).2.2.2 (some "a.wav") "medium" none none 8 [] (by decide) rfl rfl
      (by decide)).1⟩

/-- C8: in every execution of `transcribe_audio` — including the degraded paths
where alignment or diarization fails — the emitted progress fractions are
monotonically non-decreasing, and each lies in (0, 1]. -/
theorem claim_C8_progress_monotone :
    ∀ (env : TEnv) (audio_file : Option String) (model_size : String)
      (hf_token : Option String) (mins maxs : Option ℤ) (nthreads : ℤ),
      List.Pairwise (· ≤ ·)
          ((transcribe_audio env audio_file model_size hf_token mins maxs
            nthreads).2.map Prod.fst) ∧
        ∀ pr ∈ (transcribe_audio env audio_file model_size hf_token mins maxs
            nthreads).2, 0 < pr.1 ∧ pr.1 ≤ 1 := by
  intro env audio model hf mins maxs nth
  by_cases ha : pyTruthy audio = true
  · cases hld : env.load_model with
    | error e =>
        constructor
        · simp [transcribe_audio, ha, hld]
        · intro pr hpr
          simp [transcribe_audio, ha, hld] at hpr
          rw [show pr.1 = _ from by rw [hpr]]
          norm_num
    | ok u =>
        cases u
        cases htr : env.transcribe with
        | error e =>
            constructor
            · simp [transcribe_audio, ha, hld, htr, List.pairwise_cons]
              norm_num
            · intro pr hpr
              simp [transcribe_audio, ha, hld, htr] at hpr
              rcases hpr with h | h <;> rw [show pr.1 = _ from by rw [h]] <;> norm_num
        | ok segs =>
            by_cases heff :
              pyTruthy (effective_token hf (get_hf_token_from_env env)) = true
            · cases hal : env.align with
              | ok a =>
                  cases hd : env.diarize with
                  | ok d =>
                      constructor
                      · simp [transcribe_audio, ha, hld, htr, hal, heff, hd,
                          List.pairwise_cons]
                        norm_num
                      · intro pr hpr
                        simp [transcribe_audio, ha, hld, htr, hal, heff, hd] at hpr
                        rcases hpr with h | h | h | h | h | h | h <;>
                          rw [show pr.1 = _ from by rw [h]] <;> norm_num
                  | error e =>
                      constructor
                      · simp [transcribe_audio, ha, hld, htr, hal, heff, hd,
                          List.pairwise_cons]
                        norm_num
                      · intro pr hpr
                        simp [transcribe_audio, ha, hld, htr, hal, heff, hd] at hpr
                        rcases hpr with h | h | h | h | h | h | h | h <;>
                          rw [show pr.1 = _ from by rw [h]] <;> norm_num
              | error e =>
                  cases hd : env.diarize with
                  | ok d =>
                      constructor
                      · simp [transcribe_audio, ha, hld, htr, hal, heff, hd,
                          List.pairwise_cons]
                        norm_num
                      · intro pr hpr
                        simp [transcribe_audio, ha, hld, htr, hal, heff, hd] at hpr
                        rcases hpr with h | h | h | h | h | h | h | h <;>
                          rw [show pr.1 = _ from by rw [h]] <;> norm_num
                  | error e2 =>
                      constructor
                      · simp [transcribe_audio, ha, hld, htr, hal, heff, hd,
                          List.pairwise_cons]
                        norm_num
                      · intro pr hpr
                        simp [transcribe_audio, ha, hld, htr, hal, heff, hd] at hpr
                        rcases hpr with h | h | h | h | h | h | h | h | h <;>
                          rw [show pr.1 = _ from by rw [h]] <;> norm_num
            · have heff' :
                  pyTruthy (effective_token hf (get_hf_token_from_env env)) = false := by
                simpa using heff
              cases hal : env.align with
              | ok a =>
                  constructor
                  · simp [transcribe_audio, ha, hld, htr, hal, heff',
                      List.pairwise_cons]
                    norm_num
                  · intro pr hpr
                    simp [transcribe_audio, ha, hld, htr, hal, heff'] at hpr
                    rcases hpr with h | h | h | h | h | h <;>
                      rw [show pr.1 = _ from by rw [h]] <;> norm_num
              | error e =>
                  constructor
                  · simp [transcribe_audio, ha, hld, htr, hal, heff',
                      List.pairwise_cons]
                    norm_num
                  · intro pr hpr
                    simp [transcribe_audio, ha, hld, htr, hal, heff'] at hpr
                    rcases hpr with h | h | h | h | h | h | h <;>
                      rw [show pr.1 = _ from by rw [h]] <;> norm_num
  · have ha' : pyTruthy audio = false := by simpa using ha
    simp [transcribe_audio, ha']
